import Mathlib

/-!
Verification development for `yml2xls.py`, a script that fills a UNL
Physics Dept. requisition spreadsheet form from a YAML order record,
paginating the item list across several copies of the form.

The Python source is embedded shallowly:
  * YAML scalar values written into cells are modelled by `CellValue`
    (strings and integers, the only shapes the script produces).
  * A Python dict of items is an ordered association list
    `List (String × ItemInfo)` (dicts preserve insertion order).
  * A worksheet is a function from cell coordinates to optional values;
    template bytes, the decoder (`openpyxl.load_workbook`) and the
    encoder (`save_virtual_workbook`) are abstract parameters.
  * Exceptions (`KeyError` on a missing required key) become `Except` /
    an `error` field; file writes and network reads are made explicit.
-/

/-- A scalar value that the script writes into a spreadsheet cell. -/
inductive CellValue where
  | str (s : String)
  | int (n : Int)
deriving DecidableEq, Repr

/-- The `info` mapping of one line item: the script reads keys `desc`,
`quantity` and `unit_price` with `.get` defaults (lines 83-85). -/
structure ItemInfo where
  desc : Option CellValue
  quantity : Option CellValue
  unit_price : Option CellValue
deriving DecidableEq, Repr

/-- One entry of the ordered `items` mapping. -/
abbrev PItem := String × ItemInfo

/-- A cell coordinate such as `B16`: column letter and row number. -/
structure Cell where
  col : String
  row : Nat
deriving DecidableEq, Repr

/-- The active worksheet of a loaded workbook, as a partial valuation of
cells. `none` stands for whatever the blank template holds there. -/
def Worksheet : Type := Cell → Option CellValue

/-- Assignment `ws[addr] = v` of openpyxl, as a function update. -/
def setCell (ws : Worksheet) (c : Cell) (v : CellValue) : Worksheet :=
  fun c' => if c' = c then some v else ws c'

/-- Fuel-driven worker for `chunks` (fuel makes the recursion structural,
so that terms evaluate by `rfl`/`decide`; `chunks` feeds it the list
length, which is enough fuel because every step with a positive chunk
size consumes at least one element). -/
def chunksGo : Nat → List PItem → Nat → List (List PItem)
  | _, [], _ => []
  | _, _ :: _, 0 => []
  | 0, _ :: _, _ + 1 => []
  | fuel + 1, x :: rest, n + 1 =>
      ((x :: rest).take (n + 1)) :: chunksGo fuel ((x :: rest).drop (n + 1)) (n + 1)

/-- `chunks(d, n)` of lines 21-26: walks `range(0, len(lst), n)` taking
the slice `lst[i : i + n]` at each step, which is exactly the take/drop
stepping below. The script only ever calls it with `n = 10`; Python
`range` with step `0` would raise `ValueError`, and the `n = 0` branch
of `chunksGo` is never reached from the call sites considered here. -/
def chunks (d : List PItem) (n : Nat) : List (List PItem) :=
  chunksGo d.length d n

theorem chunksGo_congr (f1 : Nat) :
    ∀ (f2 : Nat) (l : List PItem) (n : Nat), l.length ≤ f1 → l.length ≤ f2 →
      chunksGo f1 l n = chunksGo f2 l n := by
  induction f1 with
  | zero =>
      intro f2 l n h1 _
      have hl : l = [] := List.eq_nil_of_length_eq_zero (Nat.le_zero.mp h1)
      subst hl
      cases f2 <;> cases n <;> rfl
  | succ f1 ih =>
      intro f2 l n h1 h2
      cases l with
      | nil => cases f2 <;> cases n <;> rfl
      | cons x rest =>
          cases n with
          | zero => cases f2 <;> rfl
          | succ m =>
              cases f2 with
              | zero =>
                  exact absurd h2 (by simp [List.length_cons])
              | succ f2 =>
                  simp only [List.length_cons] at h1 h2
                  have hd1 : ((x :: rest).drop (m + 1)).length ≤ f1 := by
                    simp only [List.length_drop, List.length_cons]
                    omega
                  have hd2 : ((x :: rest).drop (m + 1)).length ≤ f2 := by
                    simp only [List.length_drop, List.length_cons]
                    omega
                  show ((x :: rest).take (m + 1)) :: chunksGo f1 ((x :: rest).drop (m + 1)) (m + 1)
                      = ((x :: rest).take (m + 1)) :: chunksGo f2 ((x :: rest).drop (m + 1)) (m + 1)
                  rw [ih _ _ _ hd1 hd2]

theorem chunksGo_fuel_irrelevant (fuel : Nat) (l : List PItem) (n : Nat)
    (h : l.length ≤ fuel) : chunksGo fuel l n = chunks l n :=
  chunksGo_congr fuel l.length l n h (Nat.le_refl _)

/-- One-step unfolding of `chunks`, mirroring one iteration of the
Python loop. -/
theorem chunks_cons (x : PItem) (rest : List PItem) (n : Nat) :
    chunks (x :: rest) (n + 1) =
      ((x :: rest).take (n + 1)) :: chunks ((x :: rest).drop (n + 1)) (n + 1) := by
  show ((x :: rest).take (n + 1)) :: chunksGo rest.length ((x :: rest).drop (n + 1)) (n + 1) = _
  rw [chunksGo_fuel_irrelevant rest.length]
  simp only [List.length_drop, List.length_cons]
  omega

theorem chunks_nil (n : Nat) : chunks [] n = [] := rfl

/-- Concatenating the chunks in order rebuilds the original item list. -/
theorem chunks_join (l : List PItem) (n : Nat) : (chunks l (n + 1)).flatten = l := by
  cases l with
  | nil => rfl
  | cons x rest =>
      rw [chunks_cons]
      have ih := chunks_join ((x :: rest).drop (n + 1)) n
      simp only [List.flatten_cons, ih]
      exact List.take_append_drop (n + 1) (x :: rest)
termination_by l.length
decreasing_by
  simp only [List.length_drop, List.length_cons]
  omega

/-- Every chunk holds at most `n + 1` items. -/
theorem chunks_sizes (l : List PItem) (n : Nat) :
    ∀ c ∈ chunks l (n + 1), c.length ≤ n + 1 := by
  cases l with
  | nil => intro c hc; cases hc
  | cons x rest =>
      rw [chunks_cons]
      intro c hc
      cases hc with
      | head =>
          simp only [List.length_take]
          omega
      | tail _ hmem =>
          exact chunks_sizes ((x :: rest).drop (n + 1)) n c hmem
termination_by l.length
decreasing_by
  simp only [List.length_drop, List.length_cons]
  omega

/-- With capacity 10 the number of chunks is the rounded-up quotient. -/
theorem chunks_count_ten (l : List PItem) :
    (chunks l 10).length = (l.length + 9) / 10 := by
  cases l with
  | nil => rfl
  | cons x rest =>
      have h10 : (10 : Nat) = 9 + 1 := rfl
      rw [h10, chunks_cons, ← h10]
      have ih := chunks_count_ten ((x :: rest).drop 10)
      simp only [List.length_cons, List.length_drop] at ih ⊢
      rw [ih]
      omega
termination_by l.length
decreasing_by
  simp only [List.length_drop, List.length_cons]
  omega

theorem chunks_ne_nil (x : PItem) (rest : List PItem) : chunks (x :: rest) 10 ≠ [] := by
  have h10 : (10 : Nat) = 9 + 1 := rfl
  rw [h10, chunks_cons]
  exact List.cons_ne_nil _ _

/-- The `vendor` sub-mapping of the source record. Every key is read
with `.get(key, "")` (lines 54-65), so each field is optional. -/
structure Vendor where
  name : Option String
  address : Option String
  city : Option String
  state : Option String
  zip : Option String
  contact_name : Option String
  contact_phone : Option String
  phone : Option String
  fax : Option String
  url : Option String
deriving DecidableEq, Repr

/-- The YAML source record (`self.src`). Keys read with `src[key]`
raise `KeyError` when absent, hence `Option` plus an explicit error
path in the functions below; keys read with `.get` carry defaults. -/
structure SrcRecord where
  vendor : Vendor
  delivery_date : Option String
  cost_object : Option String
  submission_date : Option String
  requestor_name : Option String
  requestor_phone : Option String
  supervisor_name : Option String
  use_for_project : Option String
  items : Option (List PItem)
deriving DecidableEq, Repr

theorem setCell_same (ws : Worksheet) (c : Cell) (v : CellValue) :
    setCell ws c v c = some v := by
  simp [setCell]

theorem setCell_other {ws : Worksheet} {c : Cell} {v : CellValue} {c' : Cell}
    (h : c' ≠ c) : setCell ws c v c' = ws c' := by
  simp [setCell, h]

theorem cell_ne_of_col_ne {c d : Cell} (h : c.col ≠ d.col) : c ≠ d :=
  fun e => h (congrArg Cell.col e)

theorem cell_ne_of_row_ne {c d : Cell} (h : c.row ≠ d.row) : c ≠ d :=
  fun e => h (congrArg Cell.row e)

/-- `populate_misc_fields` (lines 50-76). Cells are written in source
order; reaching a required key that is absent raises `KeyError` there,
after the earlier in-memory cell writes but before any file output.
`today` stands for `datetime.date.today().strftime("%b. %d, %Y")`. -/
def populate_misc_fields (ws : Worksheet) (src : SrcRecord) (today : String) :
    Except String Worksheet :=
  let v := src.vendor
  let ws := setCell ws ⟨"B", 11⟩ (.str (v.name.getD ""))
  let ws := setCell ws ⟨"B", 13⟩ (.str (v.address.getD ""))
  let city := v.city.getD ""
  let state := v.state.getD ""
  let zip := v.zip.getD ""
  let ws := setCell ws ⟨"B", 16⟩ (.str (city ++ ", " ++ state ++ " " ++ zip))
  let contact_name := v.contact_name.getD ""
  let contact_phone := v.contact_phone.getD ""
  let ws := setCell ws ⟨"B", 24⟩ (.str (contact_name ++ ", " ++ contact_phone))
  let ws := setCell ws ⟨"B", 22⟩ (.str (v.phone.getD ""))
  let ws := setCell ws ⟨"F", 22⟩ (.str (v.fax.getD ""))
  let ws := setCell ws ⟨"B", 26⟩ (.str (v.url.getD ""))
  let ws := setCell ws ⟨"E", 28⟩ (.str (src.delivery_date.getD ""))
  let ws := setCell ws ⟨"D", 43⟩ (.str (src.cost_object.getD ""))
  let ws := setCell ws ⟨"B", 45⟩ (.str (src.submission_date.getD today))
  match src.requestor_name with
  | none => .error "KeyError: requestor_name"
  | some rn =>
    let ws := setCell ws ⟨"C", 47⟩ (.str rn)
    match src.requestor_phone with
    | none => .error "KeyError: requestor_phone"
    | some rp =>
      let ws := setCell ws ⟨"K", 47⟩ (.str rp)
      match src.supervisor_name with
      | none => .error "KeyError: supervisor_name"
      | some sn =>
        let ws := setCell ws ⟨"C", 49⟩ (.str sn)
        match src.use_for_project with
        | none => .error "KeyError: use_for_project"
        | some up => .ok (setCell ws ⟨"B", 18⟩ (.str up))

/-- The worksheet `populate_misc_fields` leaves behind on success (its
`.ok` projection; on the error path the partially written sheet is
irrelevant because the run aborts before saving). -/
def miscOr (ws : Worksheet) (src : SrcRecord) (today : String) : Worksheet :=
  match populate_misc_fields ws src today with
  | .ok w => w
  | .error _ => ws

/-- The body of the `populate_parts` loop for one item at loop index
`i` (lines 80-85): four cell writes in row `i + 32`. -/
def populatePartRow (ws : Worksheet) (i : Nat) (x : PItem) : Worksheet :=
  setCell
    (setCell
      (setCell
        (setCell ws ⟨"A", i + 32⟩ (.str x.1))
        ⟨"B", i + 32⟩ (x.2.desc.getD (.str "")))
      ⟨"L", i + 32⟩ (x.2.quantity.getD (.int 1)))
    ⟨"Q", i + 32⟩ (x.2.unit_price.getD (.str "N/A"))

/-- The `enumerate` loop of `populate_parts`, with `i` the current loop
index. -/
def populate_parts_from (ws : Worksheet) (i : Nat) : List PItem → Worksheet
  | [] => ws
  | x :: rest => populate_parts_from (populatePartRow ws i x) (i + 1) rest

/-- `populate_parts(parts)` (lines 78-85). -/
def populate_parts (ws : Worksheet) (parts : List PItem) : Worksheet :=
  populate_parts_from ws 0 parts

/-- `place_sheet_number(i, n)` (lines 87-89). -/
def place_sheet_number (ws : Worksheet) (i n : Nat) : Worksheet :=
  setCell ws ⟨"A", 52⟩ (.str ("Sheet " ++ toString i ++ " of " ++ toString n))

/-- `fetch_empty_form` (lines 39-48) over an abstract byte type `β`:
`net` is what `urlopen(blank_req_url).read()` would return, `decode` is
`openpyxl.load_workbook` on a byte buffer. Returns the updated cached
blob (`self._blank_form_raw`), the freshly decoded workbook, and the
number of network reads performed (0 or 1). The `global` statement on
line 43 is inert: the assignment on line 46 still targets the instance
attribute, so the cache lives on the `UNLRequisition` object, seeded
`None` by the class attribute on line 30. -/
def fetch_empty_form {β : Type} (net : β) (decode : β → Worksheet)
    (cache : Option β) : Option β × Worksheet × Nat :=
  match cache with
  | none => (some net, decode net, 1)
  | some b => (some b, decode b, 0)

/-- Zero-padding of `f"{i:02d}"`: minimum width two, never truncating. -/
def pad2 (i : Nat) : String :=
  if i < 10 then "0" ++ toString i else toString i

/-- The output filename for chunk index `i` out of `n` chunks
(lines 99-102). -/
def fnameFor (name : String) (n i : Nat) : String :=
  if n > 1 then name ++ "_" ++ pad2 i ++ ".xlsx" else name ++ ".xlsx"

/-- Observable outcome of one `save_form()` call: the final cached
template blob, the files written (filename and serialized bytes, in
order), how many network fetches of the template happened, and the
uncaught exception if one was raised. -/
structure RunResult (β : Type) where
  cache : Option β
  files : List (String × β)
  fetches : Nat
  error : Option String
deriving Repr

/-- The `for i, parts_chunk in enumerate(parts_chunked)` loop body of
`save_form` (lines 93-104): fetch a fresh form, populate the item rows,
then the misc fields (which may raise), place the sheet number, compute
the filename and write the serialized workbook out. An exception stops
the loop at once, keeping the files already written. -/
def save_form_go {β : Type} (net : β) (decode : β → Worksheet) (encode : Worksheet → β)
    (src : SrcRecord) (name today : String) (n : Nat) :
    Nat → List (List PItem) → Option β → List (String × β) → Nat → RunResult β
  | _, [], cache, files, fetches => ⟨cache, files, fetches, none⟩
  | i, c :: rest, cache, files, fetches =>
      let fr := fetch_empty_form net decode cache
      let ws1 := populate_parts fr.2.1 c
      match populate_misc_fields ws1 src today with
      | .error e => ⟨fr.1, files, fetches + fr.2.2, some e⟩
      | .ok ws2 =>
          let ws3 := place_sheet_number ws2 (i + 1) n
          save_form_go net decode encode src name today n (i + 1) rest fr.1
            (files ++ [(fnameFor name n i, encode ws3)]) (fetches + fr.2.2)

/-- `save_form()` (lines 91-104). `src["items"]` raises `KeyError` when
the key is absent; otherwise the items are chunked with capacity 10 and
the loop above runs. `cache` is the state of `_blank_form_raw` on
entry (`none` for a fresh instance). -/
def save_form {β : Type} (net : β) (decode : β → Worksheet) (encode : Worksheet → β)
    (src : SrcRecord) (name today : String) (cache : Option β) : RunResult β :=
  match src.items with
  | none => ⟨cache, [], 0, some "KeyError: items"⟩
  | some its =>
      let pc := chunks its 10
      save_form_go net decode encode src name today pc.length 0 pc cache [] 0

/-- The diagnostic printed on a failed conversion (lines 129-134). -/
def convertFailMsg : String :=
  "Failed to convert the form to pdf. Is Libreoffice installed and available on PATH?"

/-- The `--pdf` loop of `main` (lines 124-134): for each produced file,
run the converter (`retcode` gives the exit status the subprocess call
returns for that file); on status 0 delete the file (`os.remove`), else
keep it and print the diagnostic, and in either case continue with the
remaining files. `files` is the set of files on disk, as a list;
returns the remaining files and the diagnostics printed, in order. -/
def convert_loop (retcode : String → Int) (fnames : List String)
    (files : List String) : List String × List String :=
  match fnames with
  | [] => (files, [])
  | f :: rest =>
      if retcode f = 0 then convert_loop retcode rest (files.erase f)
      else
        let r := convert_loop retcode rest files
        (r.1, convertFailMsg :: r.2)

theorem populate_misc_fields_ok (ws : Worksheet) (src : SrcRecord) (today : String)
    (rn rp sn up : String)
    (h1 : src.requestor_name = some rn) (h2 : src.requestor_phone = some rp)
    (h3 : src.supervisor_name = some sn) (h4 : src.use_for_project = some up) :
    populate_misc_fields ws src today = .ok (miscOr ws src today) := by
  simp [populate_misc_fields, miscOr, h1, h2, h3, h4]

theorem miscOr_read_B16 (ws : Worksheet) (src : SrcRecord) (today : String)
    (rn rp sn up : String)
    (h1 : src.requestor_name = some rn) (h2 : src.requestor_phone = some rp)
    (h3 : src.supervisor_name = some sn) (h4 : src.use_for_project = some up) :
    miscOr ws src today ⟨"B", 16⟩ =
      some (.str ((src.vendor.city.getD "") ++ ", " ++ (src.vendor.state.getD "")
        ++ " " ++ (src.vendor.zip.getD ""))) := by
  simp [miscOr, populate_misc_fields, h1, h2, h3, h4, setCell]

theorem miscOr_read_B24 (ws : Worksheet) (src : SrcRecord) (today : String)
    (rn rp sn up : String)
    (h1 : src.requestor_name = some rn) (h2 : src.requestor_phone = some rp)
    (h3 : src.supervisor_name = some sn) (h4 : src.use_for_project = some up) :
    miscOr ws src today ⟨"B", 24⟩ =
      some (.str ((src.vendor.contact_name.getD "") ++ ", "
        ++ (src.vendor.contact_phone.getD ""))) := by
  simp [miscOr, populate_misc_fields, h1, h2, h3, h4, setCell]

theorem populate_misc_fields_err (ws : Worksheet) (src : SrcRecord) (today : String)
    (hmiss : src.requestor_name = none ∨ src.requestor_phone = none ∨
      src.supervisor_name = none ∨ src.use_for_project = none) :
    ∃ e, populate_misc_fields ws src today = .error e := by
  rcases hmiss with h | h | h | h
  · exact ⟨"KeyError: requestor_name", by simp [populate_misc_fields, h]⟩
  · cases hn : src.requestor_name with
    | none => exact ⟨"KeyError: requestor_name", by simp [populate_misc_fields, hn]⟩
    | some rn => exact ⟨"KeyError: requestor_phone", by simp [populate_misc_fields, hn, h]⟩
  · cases hn : src.requestor_name with
    | none => exact ⟨"KeyError: requestor_name", by simp [populate_misc_fields, hn]⟩
    | some rn =>
        cases hp : src.requestor_phone with
        | none => exact ⟨"KeyError: requestor_phone", by simp [populate_misc_fields, hn, hp]⟩
        | some rp => exact ⟨"KeyError: supervisor_name", by simp [populate_misc_fields, hn, hp, h]⟩
  · cases hn : src.requestor_name with
    | none => exact ⟨"KeyError: requestor_name", by simp [populate_misc_fields, hn]⟩
    | some rn =>
        cases hp : src.requestor_phone with
        | none => exact ⟨"KeyError: requestor_phone", by simp [populate_misc_fields, hn, hp]⟩
        | some rp =>
            cases hs : src.supervisor_name with
            | none => exact ⟨"KeyError: supervisor_name", by simp [populate_misc_fields, hn, hp, hs]⟩
            | some sn => exact ⟨"KeyError: use_for_project", by simp [populate_misc_fields, hn, hp, hs, h]⟩

theorem populatePartRow_read_A (ws : Worksheet) (i : Nat) (x : PItem) :
    populatePartRow ws i x ⟨"A", i + 32⟩ = some (.str x.1) := by
  simp [populatePartRow, setCell]

theorem populatePartRow_read_B (ws : Worksheet) (i : Nat) (x : PItem) :
    populatePartRow ws i x ⟨"B", i + 32⟩ = some (x.2.desc.getD (.str "")) := by
  simp [populatePartRow, setCell]

theorem populatePartRow_read_L (ws : Worksheet) (i : Nat) (x : PItem) :
    populatePartRow ws i x ⟨"L", i + 32⟩ = some (x.2.quantity.getD (.int 1)) := by
  simp [populatePartRow, setCell]

theorem populatePartRow_read_Q (ws : Worksheet) (i : Nat) (x : PItem) :
    populatePartRow ws i x ⟨"Q", i + 32⟩ = some (x.2.unit_price.getD (.str "N/A")) := by
  simp [populatePartRow, setCell]

theorem populatePartRow_frame_row (ws : Worksheet) (i : Nat) (x : PItem) (c : Cell)
    (h : c.row ≠ i + 32) : populatePartRow ws i x c = ws c := by
  obtain ⟨ccol, crow⟩ := c
  simp only [Cell.row] at h
  simp [populatePartRow, setCell, h]

theorem populatePartRow_frame_col (ws : Worksheet) (i : Nat) (x : PItem) (c : Cell)
    (ha : c.col ≠ "A") (hb : c.col ≠ "B") (hl : c.col ≠ "L") (hq : c.col ≠ "Q") :
    populatePartRow ws i x c = ws c := by
  obtain ⟨ccol, crow⟩ := c
  simp only [Cell.col] at ha hb hl hq
  simp [populatePartRow, setCell, ha, hb, hl, hq]

theorem populate_parts_from_frame :
    ∀ (cs : List PItem) (i : Nat) (ws : Worksheet) (c : Cell),
      (c.row < i + 32 ∨ i + 32 + cs.length ≤ c.row ∨
        (c.col ≠ "A" ∧ c.col ≠ "B" ∧ c.col ≠ "L" ∧ c.col ≠ "Q")) →
      populate_parts_from ws i cs c = ws c := by
  intro cs
  induction cs with
  | nil => intro i ws c _; rfl
  | cons x rest ih =>
      intro i ws c h
      show populate_parts_from (populatePartRow ws i x) (i + 1) rest c = ws c
      have hrec : populate_parts_from (populatePartRow ws i x) (i + 1) rest c
          = populatePartRow ws i x c := by
        apply ih
        rcases h with h | h | h
        · left; omega
        · right; left; simp only [List.length_cons] at h; omega
        · right; right; exact h
      rw [hrec]
      rcases h with h | h | h
      · exact populatePartRow_frame_row _ _ _ _ (by omega)
      · exact populatePartRow_frame_row _ _ _ _ (by simp only [List.length_cons] at h; omega)
      · exact populatePartRow_frame_col _ _ _ _ h.1 h.2.1 h.2.2.1 h.2.2.2

theorem populate_parts_from_read :
    ∀ (cs : List PItem) (p i : Nat) (ws : Worksheet) (hp : p < cs.length),
      populate_parts_from ws i cs ⟨"A", i + p + 32⟩ = some (.str (cs.get ⟨p, hp⟩).1) ∧
      populate_parts_from ws i cs ⟨"B", i + p + 32⟩
        = some ((cs.get ⟨p, hp⟩).2.desc.getD (.str "")) ∧
      populate_parts_from ws i cs ⟨"L", i + p + 32⟩
        = some ((cs.get ⟨p, hp⟩).2.quantity.getD (.int 1)) ∧
      populate_parts_from ws i cs ⟨"Q", i + p + 32⟩
        = some ((cs.get ⟨p, hp⟩).2.unit_price.getD (.str "N/A")) := by
  intro cs
  induction cs with
  | nil => intro p i ws hp; exact absurd hp (by simp)
  | cons x rest ih =>
      intro p i ws hp
      cases p with
      | zero =>
          have hfr : ∀ col, populate_parts_from ws i (x :: rest) ⟨col, i + 0 + 32⟩
              = populatePartRow ws i x ⟨col, i + 0 + 32⟩ := by
            intro col
            show populate_parts_from (populatePartRow ws i x) (i + 1) rest ⟨col, i + 0 + 32⟩ = _
            apply populate_parts_from_frame
            left
            show i + 0 + 32 < i + 1 + 32
            omega
          refine ⟨?_, ?_, ?_, ?_⟩ <;> rw [hfr]
          · exact populatePartRow_read_A ws i x
          · exact populatePartRow_read_B ws i x
          · exact populatePartRow_read_L ws i x
          · exact populatePartRow_read_Q ws i x
      | succ q =>
          have hq : q < rest.length := by
            simp only [List.length_cons] at hp
            omega
          have hrow : i + (q + 1) + 32 = (i + 1) + q + 32 := by omega
          rw [hrow]
          exact ih q (i + 1) (populatePartRow ws i x) hq

/-- The files `save_form` is expected to write for the chunk list `cs`
starting at chunk index `i`, each built afresh from the decoded blob
`b`: no state flows from one chunk to the next. -/
def expectedFiles {β : Type} (decode : β → Worksheet) (encode : Worksheet → β)
    (src : SrcRecord) (today name : String) (n : Nat) (b : β) :
    Nat → List (List PItem) → List (String × β)
  | _, [] => []
  | i, c :: rest =>
      (fnameFor name n i,
        encode (place_sheet_number (miscOr (populate_parts (decode b) c) src today) (i + 1) n))
        :: expectedFiles decode encode src today name n b (i + 1) rest

theorem save_form_go_cached {β : Type} (net : β) (decode : β → Worksheet)
    (encode : Worksheet → β) (src : SrcRecord) (name today : String) (n : Nat)
    (rn rp sn up : String)
    (h1 : src.requestor_name = some rn) (h2 : src.requestor_phone = some rp)
    (h3 : src.supervisor_name = some sn) (h4 : src.use_for_project = some up) :
    ∀ (cs : List (List PItem)) (i : Nat) (b : β) (files : List (String × β)) (fetches : Nat),
      save_form_go net decode encode src name today n i cs (some b) files fetches =
        ⟨some b, files ++ expectedFiles decode encode src today name n b i cs, fetches, none⟩ := by
  intro cs
  induction cs with
  | nil => intro i b files fetches; simp [save_form_go, expectedFiles]
  | cons c rest ih =>
      intro i b files fetches
      show (match populate_misc_fields (populate_parts (decode b) c) src today with
        | .error e => RunResult.mk (some b) files (fetches + 0) (some e)
        | .ok ws2 =>
            save_form_go net decode encode src name today n (i + 1) rest (some b)
              (files ++ [(fnameFor name n i,
                encode (place_sheet_number ws2 (i + 1) n))]) (fetches + 0)) = _
      rw [populate_misc_fields_ok _ _ _ rn rp sn up h1 h2 h3 h4]
      show save_form_go net decode encode src name today n (i + 1) rest (some b)
          (files ++ [(fnameFor name n i,
            encode (place_sheet_number (miscOr (populate_parts (decode b) c) src today) (i + 1) n))])
          (fetches + 0) = _
      rw [ih (i + 1) b _ (fetches + 0)]
      simp [expectedFiles]

/-- Full characterization of one `save_form()` run on a fresh instance
(cache `none`), when all four required record keys are present: no
exception, at most one network fetch (exactly one when there is at
least one chunk), and one output file per chunk, each rebuilt from the
single cached blob. -/
theorem save_form_run {β : Type} (net : β) (decode : β → Worksheet) (encode : Worksheet → β)
    (src : SrcRecord) (name today : String) (rn rp sn up : String) (its : List PItem)
    (h1 : src.requestor_name = some rn) (h2 : src.requestor_phone = some rp)
    (h3 : src.supervisor_name = some sn) (h4 : src.use_for_project = some up)
    (hits : src.items = some its) :
    save_form net decode encode src name today none =
      ⟨(if chunks its 10 = [] then none else some net),
       expectedFiles decode encode src today name (chunks its 10).length net 0 (chunks its 10),
       (if chunks its 10 = [] then 0 else 1), none⟩ := by
  simp only [save_form, hits]
  cases hc : chunks its 10 with
  | nil => simp [save_form_go, expectedFiles]
  | cons c rest =>
      show (match populate_misc_fields (populate_parts (decode net) c) src today with
        | .error e => RunResult.mk (some net) [] (0 + 1) (some e)
        | .ok ws2 =>
            save_form_go net decode encode src name today (c :: rest).length 1 rest (some net)
              ([] ++ [(fnameFor name (c :: rest).length 0,
                encode (place_sheet_number ws2 (0 + 1) (c :: rest).length))]) (0 + 1)) = _
      rw [populate_misc_fields_ok _ _ _ rn rp sn up h1 h2 h3 h4]
      show save_form_go net decode encode src name today (c :: rest).length 1 rest (some net)
          ([] ++ [(fnameFor name (c :: rest).length 0,
            encode (place_sheet_number (miscOr (populate_parts (decode net) c) src today)
              (0 + 1) (c :: rest).length))]) (0 + 1) = _
      rw [save_form_go_cached net decode encode src name today (c :: rest).length
        rn rp sn up h1 h2 h3 h4 rest 1 net _ (0 + 1)]
      simp [expectedFiles]

theorem convert_loop_subset (rc : String → Int) :
    ∀ (fnames files : List String), (convert_loop rc fnames files).1 ⊆ files := by
  intro fnames
  induction fnames with
  | nil => intro files x hx; exact hx
  | cons f rest ih =>
      intro files x hx
      by_cases h0 : rc f = 0
      · simp only [convert_loop, if_pos h0] at hx
        exact List.erase_subset f files (ih (files.erase f) hx)
      · simp only [convert_loop, if_neg h0] at hx
        exact ih files hx

theorem convert_loop_keeps (rc : String → Int) :
    ∀ (fnames files : List String) (g : String), g ∉ fnames → g ∈ files →
      g ∈ (convert_loop rc fnames files).1 := by
  intro fnames
  induction fnames with
  | nil => intro files g _ hg; exact hg
  | cons f rest ih =>
      intro files g hnot hg
      have hgf : g ≠ f := fun e => hnot (e ▸ List.mem_cons_self f rest)
      have hgr : g ∉ rest := fun hr => hnot (List.mem_cons_of_mem f hr)
      by_cases h0 : rc f = 0
      · simp only [convert_loop, if_pos h0]
        exact ih (files.erase f) g hgr ((List.mem_erase_of_ne hgf).mpr hg)
      · simp only [convert_loop, if_neg h0]
        exact ih files g hgr hg

theorem convert_loop_msgs (rc : String → Int) :
    ∀ (fnames files : List String),
      (convert_loop rc fnames files).2.length
        = (fnames.filter (fun f => decide (rc f ≠ 0))).length := by
  intro fnames
  induction fnames with
  | nil => intro files; rfl
  | cons f rest ih =>
      intro files
      by_cases h0 : rc f = 0
      · simp [convert_loop, h0, ih]
      · simp [convert_loop, h0, ih]

/-- Concrete byte blob for instantiations: bytes are abstracted to `Nat`. -/
def bytes0 : Nat := 0

/-- Concrete decoder for instantiations: every blob decodes to a blank sheet. -/
def decode0 : Nat → Worksheet := fun _ _ => none

/-- Concrete encoder for instantiations. -/
def encode0 : Worksheet → Nat := fun _ => 0

/-- A blank worksheet. -/
def blankWs : Worksheet := fun _ => none

/-- A vendor mapping with every key absent. -/
def noVendor : Vendor := ⟨none, none, none, none, none, none, none, none, none, none⟩

/-- An item whose info mapping has no recognized keys. -/
def item (s : String) : PItem := (s, ⟨none, none, none⟩)

/-- A record with all four required keys present and the given items. -/
def baseRec (its : Option (List PItem)) : SrcRecord :=
  ⟨noVendor, none, none, none, some "R. Name", some "555-0100", some "S. Name",
    some "Testing", its⟩

def recEmptyItems : SrcRecord := baseRec (some [])

def lst12 : List PItem :=
  [item "a", item "b", item "c", item "d", item "e", item "f", item "g", item "h",
   item "i", item "j", item "k", item "l"]

/-- C2: for every non-empty item mapping, `chunks` with capacity 10
produces exactly ceil(N/10) chunks, each of at most 10 entries, whose
in-order concatenation is the original mapping (so order is preserved
and every item lands in exactly one chunk, with no duplicates and no
drops). -/
theorem chunks_paginates_exactly (l : List PItem) (hl : l ≠ []) :
    (chunks l 10).length = (l.length + 9) / 10 ∧
    (∀ c ∈ chunks l 10, c.length ≤ 10) ∧
    (chunks l 10).flatten = l :=
  ⟨chunks_count_ten l, chunks_sizes l 9, chunks_join l 9⟩

theorem chunks_paginates_exactly_witness :
    (chunks lst12 10).length = 2 ∧ (chunks lst12 10).flatten = lst12 := by
  have h := chunks_paginates_exactly lst12 (by decide)
  exact ⟨h.1.trans (by decide), h.2.2⟩

/-- C1 counterexample: for the empty item mapping the paginator yields
zero chunks, not one empty chunk, and `save_form` writes zero output
files, not one blank form. -/
theorem empty_mapping_counterexample :
    chunks ([] : List PItem) 10 = [] ∧
    (chunks ([] : List PItem) 10).length ≠ 1 ∧
    (save_form bytes0 decode0 encode0 recEmptyItems "order" "Jan. 01, 2026" none).files = [] :=
  ⟨rfl, by decide, rfl⟩

/-- C1 amended: for the empty item mapping the paginator yields no
chunk at all, so `save_form` produces no output form (and raises
nothing). -/
theorem empty_mapping_zero_forms {β : Type} (net : β) (decode : β → Worksheet)
    (encode : Worksheet → β) (src : SrcRecord) (name today : String) (cache : Option β)
    (hits : src.items = some []) :
    chunks [] 10 = [] ∧
    (save_form net decode encode src name today cache).files = [] ∧
    (save_form net decode encode src name today cache).error = none := by
  refine ⟨rfl, ?_, ?_⟩ <;> simp [save_form, hits, save_form_go, chunks_nil]

theorem empty_mapping_zero_forms_witness :
    chunks [] 10 = [] ∧
    (save_form bytes0 decode0 encode0 recEmptyItems "order" "d" none).files = [] ∧
    (save_form bytes0 decode0 encode0 recEmptyItems "order" "d" none).error = none :=
  empty_mapping_zero_forms bytes0 decode0 encode0 recEmptyItems "order" "d" none rfl

/-- A record lacking `requestor_phone` but with an empty items mapping. -/
def recNoPhoneEmpty : SrcRecord :=
  ⟨noVendor, none, none, none, some "R. Name", none, some "S. Name", some "Testing", some []⟩

/-- C3 counterexample: a record lacking the required `requestor_phone`
whose items mapping is empty makes `save_form` return normally (the
loop body, and with it `populate_misc_fields`, never runs), so the run
does not fail. -/
theorem missing_field_no_failure_counterexample :
    recNoPhoneEmpty.requestor_phone = none ∧
    (save_form bytes0 decode0 encode0 recNoPhoneEmpty "order" "d" none).error = none ∧
    (save_form bytes0 decode0 encode0 recNoPhoneEmpty "order" "d" none).files = [] :=
  ⟨rfl, rfl, rfl⟩

/-- C3 amended: for every source record with a non-empty items mapping
that lacks a required field (`requestor_name`, `requestor_phone`,
`supervisor_name` or `use_for_project`), `save_form` raises before any
output file is written, leaving no output. -/
theorem missing_required_field_aborts {β : Type} (net : β) (decode : β → Worksheet)
    (encode : Worksheet → β) (src : SrcRecord) (name today : String)
    (x : PItem) (its : List PItem) (hits : src.items = some (x :: its))
    (hmiss : src.requestor_name = none ∨ src.requestor_phone = none ∨
      src.supervisor_name = none ∨ src.use_for_project = none) :
    (save_form net decode encode src name today none).error.isSome = true ∧
    (save_form net decode encode src name today none).files = [] := by
  obtain ⟨e, he⟩ := populate_misc_fields_err
    (populate_parts (decode net) ((x :: its).take 10)) src today hmiss
  have hrun : save_form net decode encode src name today none
      = ⟨some net, [], 0 + 1, some e⟩ := by
    simp only [save_form, hits]
    rw [show chunks (x :: its) 10
        = ((x :: its).take 10) :: chunks ((x :: its).drop 10) 10 from chunks_cons x its 9]
    simp only [save_form_go, fetch_empty_form]
    rw [he]
  rw [hrun]
  exact ⟨rfl, rfl⟩

def recNoPhoneOneItem : SrcRecord :=
  ⟨noVendor, none, none, none, some "R. Name", none, some "S. Name", some "Testing",
    some [item "x"]⟩

theorem missing_required_field_aborts_witness :
    (save_form bytes0 decode0 encode0 recNoPhoneOneItem "order" "d" none).error.isSome = true ∧
    (save_form bytes0 decode0 encode0 recNoPhoneOneItem "order" "d" none).files = [] :=
  missing_required_field_aborts bytes0 decode0 encode0 recNoPhoneOneItem "order" "d"
    (item "x") [] rfl (Or.inr (Or.inl rfl))

def lst2 : List PItem := [item "a", item "b"]

def rec2 : SrcRecord := baseRec (some lst2)

/-- C4: on a run of `save_form` from a fresh instance whose required
fields are present, the template bytes are fetched at most once
(exactly once as soon as there is a chunk), no exception escapes, and
every produced file is built by decoding the single cached blob `net`
afresh for its own chunk, so no cell write of one chunk reaches a later
chunk's form instance. -/
theorem template_fetched_once_fresh_decode {β : Type} (net : β) (decode : β → Worksheet)
    (encode : Worksheet → β) (src : SrcRecord) (name today : String)
    (rn rp sn up : String) (its : List PItem)
    (h1 : src.requestor_name = some rn) (h2 : src.requestor_phone = some rp)
    (h3 : src.supervisor_name = some sn) (h4 : src.use_for_project = some up)
    (hits : src.items = some its) :
    (save_form net decode encode src name today none).fetches ≤ 1 ∧
    (its ≠ [] → (save_form net decode encode src name today none).fetches = 1) ∧
    (save_form net decode encode src name today none).error = none ∧
    (save_form net decode encode src name today none).files
      = expectedFiles decode encode src today name (chunks its 10).length net 0
          (chunks its 10) := by
  rw [save_form_run net decode encode src name today rn rp sn up its h1 h2 h3 h4 hits]
  refine ⟨?_, ?_, rfl, rfl⟩
  · by_cases hc : chunks its 10 = [] <;> simp [hc]
  · intro hne
    cases its with
    | nil => exact absurd rfl hne
    | cons x rest => simp [chunks_ne_nil x rest]

theorem template_fetched_once_fresh_decode_witness :
    (save_form bytes0 decode0 encode0 rec2 "order" "d" none).fetches = 1 ∧
    (save_form bytes0 decode0 encode0 rec2 "order" "d" none).error = none := by
  have h := template_fetched_once_fresh_decode bytes0 decode0 encode0 rec2 "order" "d"
    "R. Name" "555-0100" "S. Name" "Testing" lst2 rfl rfl rfl rfl rfl
  exact ⟨h.2.1 (by decide), h.2.2.1⟩

theorem expectedFiles_names {β : Type} (decode : β → Worksheet) (encode : Worksheet → β)
    (src : SrcRecord) (today name : String) (n : Nat) (b : β) :
    ∀ (cs : List (List PItem)) (i : Nat),
      (expectedFiles decode encode src today name n b i cs).map Prod.fst
        = (List.range' i cs.length).map (fnameFor name n) := by
  intro cs
  induction cs with
  | nil => intro i; rfl
  | cons c rest ih =>
      intro i
      simp only [expectedFiles, List.map_cons, List.length_cons, List.range'_succ, ih]

def lst25 : List PItem := (List.range 25).map (fun i => item ("part" ++ toString i))

def rec25 : SrcRecord := baseRec (some lst25)

/-- C5: on a successful run with basename `name`, a single chunk gives
the single filename `name.xlsx`, and `n > 1` chunks give, in chunk
order, `name_00.xlsx` through `name_<n-1>.xlsx` with indices padded to
at least two digits, one file per chunk. -/
theorem output_filenames_spec {β : Type} (net : β) (decode : β → Worksheet)
    (encode : Worksheet → β) (src : SrcRecord) (name today : String)
    (rn rp sn up : String) (its : List PItem)
    (h1 : src.requestor_name = some rn) (h2 : src.requestor_phone = some rp)
    (h3 : src.supervisor_name = some sn) (h4 : src.use_for_project = some up)
    (hits : src.items = some its) :
    (save_form net decode encode src name today none).error = none ∧
    ((chunks its 10).length = 1 →
      (save_form net decode encode src name today none).files.map Prod.fst
        = [name ++ ".xlsx"]) ∧
    (1 < (chunks its 10).length →
      (save_form net decode encode src name today none).files.map Prod.fst
        = (List.range (chunks its 10).length).map
            (fun i => name ++ "_" ++ pad2 i ++ ".xlsx")) := by
  rw [save_form_run net decode encode src name today rn rp sn up its h1 h2 h3 h4 hits]
  refine ⟨rfl, ?_, ?_⟩
  · intro hlen
    show (expectedFiles decode encode src today name (chunks its 10).length net 0
        (chunks its 10)).map Prod.fst = _
    rw [expectedFiles_names, hlen]
    simp [List.range', fnameFor]
  · intro hlt
    show (expectedFiles decode encode src today name (chunks its 10).length net 0
        (chunks its 10)).map Prod.fst = _
    rw [expectedFiles_names]
    have hfn : fnameFor name (chunks its 10).length
        = fun i => name ++ "_" ++ pad2 i ++ ".xlsx" := by
      funext i
      simp [fnameFor, hlt]
    rw [hfn, List.range_eq_range']

theorem output_filenames_spec_witness :
    (save_form bytes0 decode0 encode0 rec25 "order" "d" none).files.map Prod.fst
      = ["order_00.xlsx", "order_01.xlsx", "order_02.xlsx"] := by
  have h := output_filenames_spec bytes0 decode0 encode0 rec25 "order" "d"
    "R. Name" "555-0100" "S. Name" "Testing" lst25 rfl rfl rfl rfl rfl
  exact (h.2.2 (by decide)).trans (by decide)

/-- C6: for every chunk and every item at 0-indexed position `p` in
it, `populate_parts` writes, in chunk order, the item key to
`A(32+p)`, the description (default empty string) to `B(32+p)`, the
quantity (default 1) to `L(32+p)` and the unit price (default the
literal string "N/A") to `Q(32+p)`. -/
theorem populate_parts_cells (ws : Worksheet) (parts : List PItem) (p : Nat)
    (hp : p < parts.length) :
    populate_parts ws parts ⟨"A", 32 + p⟩ = some (.str (parts.get ⟨p, hp⟩).1) ∧
    populate_parts ws parts ⟨"B", 32 + p⟩
      = some ((parts.get ⟨p, hp⟩).2.desc.getD (.str "")) ∧
    populate_parts ws parts ⟨"L", 32 + p⟩
      = some ((parts.get ⟨p, hp⟩).2.quantity.getD (.int 1)) ∧
    populate_parts ws parts ⟨"Q", 32 + p⟩
      = some ((parts.get ⟨p, hp⟩).2.unit_price.getD (.str "N/A")) := by
  have h := populate_parts_from_read parts p 0 ws hp
  have hrow : 32 + p = 0 + p + 32 := by omega
  rw [hrow]
  exact h

def itemFull : PItem :=
  ("widget", ⟨some (.str "A widget"), some (.int 3), some (.str "4.50")⟩)

theorem populate_parts_cells_witness :
    populate_parts blankWs [item "x", itemFull] ⟨"A", 33⟩ = some (.str "widget") ∧
    populate_parts blankWs [item "x", itemFull] ⟨"B", 33⟩ = some (.str "A widget") ∧
    populate_parts blankWs [item "x", itemFull] ⟨"L", 33⟩ = some (.int 3) ∧
    populate_parts blankWs [item "x", itemFull] ⟨"Q", 33⟩ = some (.str "4.50") :=
  populate_parts_cells blankWs [item "x", itemFull] 1 (by decide)

/-- C9: for a chunk of `k ≤ 10` items, `populate_parts` changes only
cells in columns A, B, L, Q of rows 32 through `31 + k` of the active
sheet; every other cell keeps its previous value. -/
theorem populate_parts_frame_effect (ws : Worksheet) (parts : List PItem) (c : Cell)
    (hk : parts.length ≤ 10)
    (h : ¬(c.col ∈ (["A", "B", "L", "Q"] : List String) ∧
      32 ≤ c.row ∧ c.row < 32 + parts.length)) :
    populate_parts ws parts c = ws c := by
  apply populate_parts_from_frame parts 0 ws c
  by_cases hcol : c.col ∈ (["A", "B", "L", "Q"] : List String)
  · rcases Nat.lt_or_ge c.row (0 + 32) with h1 | h1
    · left; exact h1
    · rcases Nat.lt_or_ge c.row (0 + 32 + parts.length) with h2 | h2
      · exact absurd ⟨hcol, by omega, by omega⟩ h
      · right; left; exact h2
  · right; right
    refine ⟨?_, ?_, ?_, ?_⟩ <;> intro he <;> exact hcol (by rw [he]; decide)

theorem populate_parts_frame_effect_witness :
    populate_parts blankWs [item "x"] ⟨"C", 32⟩ = none :=
  (populate_parts_frame_effect blankWs [item "x"] ⟨"C", 32⟩ (by decide) (by decide)).trans rfl

/-- C8: `populate_misc_fields` writes the composed string
`"{city}, {state} {zip}"` to B16 and `"{contact_name}, {contact_phone}"`
to B24, every component defaulting to the empty string when absent from
the vendor mapping. -/
theorem misc_fields_composed (ws : Worksheet) (src : SrcRecord) (today : String)
    (rn rp sn up : String)
    (h1 : src.requestor_name = some rn) (h2 : src.requestor_phone = some rp)
    (h3 : src.supervisor_name = some sn) (h4 : src.use_for_project = some up) :
    populate_misc_fields ws src today = .ok (miscOr ws src today) ∧
    miscOr ws src today ⟨"B", 16⟩
      = some (.str ((src.vendor.city.getD "") ++ ", " ++ (src.vendor.state.getD "")
          ++ " " ++ (src.vendor.zip.getD ""))) ∧
    miscOr ws src today ⟨"B", 24⟩
      = some (.str ((src.vendor.contact_name.getD "") ++ ", "
          ++ (src.vendor.contact_phone.getD ""))) :=
  ⟨populate_misc_fields_ok ws src today rn rp sn up h1 h2 h3 h4,
   miscOr_read_B16 ws src today rn rp sn up h1 h2 h3 h4,
   miscOr_read_B24 ws src today rn rp sn up h1 h2 h3 h4⟩

def vendorLincoln : Vendor :=
  ⟨some "Acme", none, some "Lincoln", some "NE", some "68588", some "Jane Doe",
    some "555-1234", none, none, none⟩

def recLincoln : SrcRecord :=
  ⟨vendorLincoln, none, none, none, some "R. Name", some "555-0100", some "S. Name",
    some "Testing", some []⟩

theorem misc_fields_composed_witness :
    miscOr blankWs recLincoln "d" ⟨"B", 16⟩ = some (.str "Lincoln, NE 68588") ∧
    miscOr blankWs recLincoln "d" ⟨"B", 24⟩ = some (.str "Jane Doe, 555-1234") := by
  have h := misc_fields_composed blankWs recLincoln "d"
    "R. Name" "555-0100" "S. Name" "Testing" rfl rfl rfl rfl
  exact ⟨h.2.1.trans (by decide), h.2.2.trans (by decide)⟩

/-- C10: when city, state and zip are all absent, B16 still receives
the non-empty separator string ",  " (comma, space, space), and when
both contact fields are absent B24 receives ", ": the separators are
written even with every component missing, so the cells are not blank. -/
theorem misc_fields_separators_when_absent (ws : Worksheet) (src : SrcRecord)
    (today : String) (rn rp sn up : String)
    (h1 : src.requestor_name = some rn) (h2 : src.requestor_phone = some rp)
    (h3 : src.supervisor_name = some sn) (h4 : src.use_for_project = some up)
    (hc : src.vendor.city = none) (hs : src.vendor.state = none)
    (hz : src.vendor.zip = none) (hcn : src.vendor.contact_name = none)
    (hcp : src.vendor.contact_phone = none) :
    miscOr ws src today ⟨"B", 16⟩ = some (.str ",  ") ∧
    miscOr ws src today ⟨"B", 24⟩ = some (.str ", ") ∧
    (",  " : String) ≠ "" ∧ (", " : String) ≠ "" := by
  have h16 := miscOr_read_B16 ws src today rn rp sn up h1 h2 h3 h4
  have h24 := miscOr_read_B24 ws src today rn rp sn up h1 h2 h3 h4
  rw [hc, hs, hz] at h16
  rw [hcn, hcp] at h24
  exact ⟨h16.trans (by decide), h24.trans (by decide), by decide, by decide⟩

def recBare : SrcRecord := baseRec (some [])

theorem misc_fields_separators_when_absent_witness :
    miscOr blankWs recBare "d" ⟨"B", 16⟩ = some (.str ",  ") ∧
    miscOr blankWs recBare "d" ⟨"B", 24⟩ = some (.str ", ") ∧
    (",  " : String) ≠ "" ∧ (", " : String) ≠ "" :=
  misc_fields_separators_when_absent blankWs recBare "d"
    "R. Name" "555-0100" "S. Name" "Testing" rfl rfl rfl rfl rfl rfl rfl rfl rfl

/-- C7: in the `--pdf` loop, a file whose conversion exits with status
zero is deleted, a file whose conversion fails stays on disk and costs
exactly one diagnostic message, and every file in the list is
processed: the diagnostics count equals the number of failures over
the whole list, so one failure aborts nothing. -/
theorem pdf_conversion_best_effort (rc : String → Int) :
    ∀ (fnames files : List String), fnames.Nodup → files.Nodup →
      (∀ f ∈ fnames, f ∈ files) →
      ((∀ f ∈ fnames,
        (rc f = 0 → f ∉ (convert_loop rc fnames files).1) ∧
        (rc f ≠ 0 → f ∈ (convert_loop rc fnames files).1)) ∧
      (convert_loop rc fnames files).2.length
        = (fnames.filter (fun f => decide (rc f ≠ 0))).length) := by
  intro fnames
  induction fnames with
  | nil =>
      intro files _ _ _
      exact ⟨fun f hf => absurd hf (List.not_mem_nil f), rfl⟩
  | cons f rest ih =>
      intro files hnd hfd hsub
      obtain ⟨hfnotin, hrestnd⟩ := List.nodup_cons.mp hnd
      refine ⟨?_, convert_loop_msgs rc (f :: rest) files⟩
      intro g hg
      by_cases h0 : rc f = 0
      · have hstep : convert_loop rc (f :: rest) files
            = convert_loop rc rest (files.erase f) := by
          simp [convert_loop, h0]
        rw [hstep]
        rcases List.mem_cons.mp hg with hgf | hgr
        · subst hgf
          constructor
          · intro _ hmem
            exact hfd.not_mem_erase (convert_loop_subset rc rest (files.erase g) hmem)
          · intro hne
            exact absurd h0 hne
        · have herased : (files.erase f).Nodup := hfd.erase f
          have hsub' : ∀ x ∈ rest, x ∈ files.erase f := by
            intro x hx
            have hxf : x ≠ f := fun e => hfnotin (e ▸ hx)
            exact (List.mem_erase_of_ne hxf).mpr (hsub x (List.mem_cons_of_mem f hx))
          exact (ih (files.erase f) hrestnd herased hsub').1 g hgr
      · have hstep : convert_loop rc (f :: rest) files
            = ((convert_loop rc rest files).1,
               convertFailMsg :: (convert_loop rc rest files).2) := by
          simp [convert_loop, h0]
        rw [hstep]
        have hsub' : ∀ x ∈ rest, x ∈ files :=
          fun x hx => hsub x (List.mem_cons_of_mem f hx)
        rcases List.mem_cons.mp hg with hgf | hgr
        · subst hgf
          constructor
          · intro hz
            exact absurd hz h0
          · intro _
            exact convert_loop_keeps rc rest files g hfnotin (hsub g (List.mem_cons_self g rest))
        · constructor
          · intro hz
            exact ((ih files hrestnd hfd hsub').1 g hgr).1 hz
          · intro hne
            exact ((ih files hrestnd hfd hsub').1 g hgr).2 hne

theorem pdf_conversion_best_effort_witness :
    "a.xlsx" ∈ (convert_loop (fun f => if f = "a.xlsx" then 1 else 0)
      ["a.xlsx", "b.xlsx"] ["a.xlsx", "b.xlsx"]).1 ∧
    "b.xlsx" ∉ (convert_loop (fun f => if f = "a.xlsx" then 1 else 0)
      ["a.xlsx", "b.xlsx"] ["a.xlsx", "b.xlsx"]).1 ∧
    (convert_loop (fun f => if f = "a.xlsx" then 1 else 0)
      ["a.xlsx", "b.xlsx"] ["a.xlsx", "b.xlsx"]).2.length = 1 := by
  have h := pdf_conversion_best_effort (fun f => if f = "a.xlsx" then 1 else 0)
    ["a.xlsx", "b.xlsx"] ["a.xlsx", "b.xlsx"] (by decide) (by decide) (by decide)
  refine ⟨(h.1 "a.xlsx" (by decide)).2 (by decide), (h.1 "b.xlsx" (by decide)).1 (by decide),
    h.2.trans (by decide)⟩
